import Mathlib

/-!
# Swell Rewards proxy routes (`src/index.js`)

A shallow embedding of the Express router built by `module.exports` in
`src/index.js`, and the properties of its twelve routes.

The router is asynchronous glue code.  Its collaborators are not part of the
repository and are taken as parameters of the model:

* `adapter.me(token)`, the platform adapter that resolves the user
  (`World.resolveUser`);
* the HTTP client `request(options, callback)`: the arguments it hands to the
  callback are `World.upstream options`;
* `JSON.parse` (`World.jsonParse`, `none` when it throws);
* `apiStatus(res, result, code)`, which writes the response: a call is
  recorded as the event `Event.apiStatus result code`.

A handler run is the list of the external effects it performs, in order.

Assumptions on the host application: `req.query` and `req.body` are objects
(Express and its body parser provide them), the adapter resolves to a user
record, and the HTTP client invokes the callback once.
-/

namespace SwellApi

/-! ## JavaScript values and objects -/

/-- JavaScript values carried by queries, bodies, errors and upstream
payloads. Objects are lists of properties in insertion order. Numbers are
integers: the router never computes with them, it only tests truthiness. -/
inductive JsVal where
  | undefined
  | null
  | bool (b : Bool)
  | num (n : Int)
  | str (s : String)
  | arr (items : List JsVal)
  | obj (fields : List (String × JsVal))

/-- A plain JavaScript object: its own properties, in insertion order. -/
abbrev Obj := List (String × JsVal)

/-- JavaScript truthiness, the test made by `if (x)` and `!x`. -/
def truthy : JsVal → Bool
  | .undefined => false
  | .null => false
  | .bool b => b
  | .num n => n != 0
  | .str s => s != ""
  | .arr _ => true
  | .obj _ => true

/-- Own-property lookup; when a list holds a key twice the later entry wins,
as in an object literal. -/
def lookup : Obj → String → Option JsVal
  | [], _ => none
  | (k', v) :: rest, k =>
    match lookup rest k with
    | some x => some x
    | none => if k' = k then some v else none

/-- Property read `o.k`: `undefined` when the property is absent. -/
def getProp (o : Obj) (k : String) : JsVal :=
  (lookup o k).getD .undefined

/-- Whether `o` has an own property `k`. -/
def hasProp (o : Obj) (k : String) : Bool :=
  (lookup o k).isSome

/-- Property write `o.k = v`: an existing property keeps its place and takes
the new value, a new property is added at the end. -/
def setProp (o : Obj) (k : String) (v : JsVal) : Obj :=
  if hasProp o k then o.map (fun p => if p.1 = k then (k, v) else p)
  else o ++ [(k, v)]

/-- The call `Object.assign(target, src)` on a target created by `{}`: every
own property of `src` is assigned to `target`, in order. The assignment of
the key `__proto__` reaches the setter inherited from `Object.prototype`: it
creates no own property (it replaces the prototype of the target when the
value is an object or `null` and does nothing otherwise). Every other key
becomes an own property. An `Obj` holds the own properties, which are what
the HTTP client serialises. -/
def assign (target src : Obj) : Obj :=
  src.foldl (fun t p => if p.1 = "__proto__" then t else setProp t p.1 p.2) target

/-! ## Configuration, requests and effects -/

/-- The record `config.extensions.swellRewards.apiUrl`. -/
structure ApiUrl where
  v1 : String
  v2 : String

/-- The record `config.extensions.swellRewards`. -/
structure SwellRewards where
  apiUrl : ApiUrl
  merchantId : JsVal
  guid : JsVal
  apiKey : JsVal

/-- The part of the incoming Express request the handlers read: `req.query`,
`req.body` and `req.ip`. -/
structure Req where
  query : Obj
  body : Obj
  ip : JsVal

/-- HTTP method of an outgoing call. -/
inductive Method where
  | GET
  | POST
deriving DecidableEq

/-- The options object passed to `request(...)`. `headers`, `qs` and `body`
are `none` when the options object has no such property. -/
structure Options where
  url : String
  method : Method
  headers : Option Obj
  json : Bool
  qs : Option Obj
  body : Option Obj

/-- The `response` argument of the `request` callback. -/
structure Response where
  statusCode : Nat

/-- The three arguments `(error, response, body)` the HTTP client hands to the
callback. `response` is `none` when the argument is `undefined`. -/
structure UpstreamResult where
  error : JsVal
  response : Option Response
  body : JsVal

/-- The collaborators of the router. -/
structure World where
  /-- Outcome of `userProxy.me(req.query.token)` for the adapter built from
  the request: the resolved user, or the rejection value. -/
  resolveUser : Req → Except JsVal Obj
  /-- Callback arguments produced by the HTTP client for given options. -/
  upstream : Options → UpstreamResult
  /-- The function `JSON.parse`; `none` when it throws. -/
  jsonParse : String → Option JsVal

/-- External effects of a handler run. -/
inductive Event where
  /-- The call `userProxy.me(token)`. -/
  | me (token : JsVal)
  /-- The call `request(options, callback)` to the loyalty API. -/
  | request (options : Options)
  /-- The call `apiStatus(res, result, code)`. -/
  | apiStatus (result : JsVal) (code : Nat)

/-- The twelve routes registered on the router. -/
inductive Route where
  | getCustomerDetails
  | postReferralEmailShares
  | postActions
  | postCustomers
  | postCustomerBirthdays
  | getCustomersAll
  | getCustomers
  | postRedemptions
  | getRedemptionOptions
  | getRedemptionCodes
  | getCampaigns
  | getVipTiers
deriving DecidableEq

/-! ## The handlers -/

/-- The function `getUser` (lines 14-24), with the rest of the handler as the
continuation `k` of the returned promise. On rejection it writes the error
with status 500 and rejects; no caller attaches a rejection handler, so the
continuation never runs. -/
def getUser (w : World) (req : Req) (k : Obj → List Event) : List Event :=
  Event.me (getProp req.query "token") ::
    match w.resolveUser req with
    | .ok user => k user
    | .error err => [Event.apiStatus err 500]

/-- The `request` callback that decodes a string body with `JSON.parse`
before relaying it (e.g. lines 49-60). A throwing `JSON.parse` or a read of
`statusCode` on an undefined response ends the callback without a response. -/
def relayDecoded (w : World) (r : UpstreamResult) : List Event :=
  if truthy r.error then [Event.apiStatus r.error 500]
  else
    let json : Option JsVal :=
      match r.body with
      | .str s => w.jsonParse s
      | v => some v
    match json, r.response with
    | some j, some resp => [Event.apiStatus j resp.statusCode]
    | _, _ => []

/-- The `request` callback that relays the body as received (lines 88-94,
174-180, 209-215). -/
def relayVerbatim (r : UpstreamResult) : List Event :=
  if truthy r.error then [Event.apiStatus r.error 500]
  else
    match r.response with
    | some resp => [Event.apiStatus r.body resp.statusCode]
    | none => []

/-- The headers object of every v2 call. -/
def credentialHeaders (config : SwellRewards) : Obj :=
  [("x-guid", config.guid), ("x-api-key", config.apiKey)]

/-- Route `GET /customer_details` (lines 35-61). -/
def getCustomerDetails (config : SwellRewards) (w : World) (req : Req) : List Event :=
  if !truthy (getProp req.query "customer_email") then
    [Event.apiStatus (.str "Customer Email required.") 400]
  else
    let options : Options :=
      { url := config.apiUrl.v1 ++ "/customer_details"
        method := .GET
        headers := none
        json := false
        qs := some [("customer_email", getProp req.query "customer_email"),
                    ("merchant_id", config.merchantId)]
        body := none }
    Event.request options :: relayDecoded w (w.upstream options)

/-- Route `POST /referral_email_shares` (lines 69-95). -/
def postReferralEmailShares (config : SwellRewards) (w : World) (req : Req) : List Event :=
  let data := req.body
  if !truthy (getProp data "customer_email") then
    [Event.apiStatus (.str "Customer Email is required.") 400]
  else
    let options : Options :=
      { url := config.apiUrl.v1 ++ "/referral_email_shares"
        method := .POST
        headers := none
        json := true
        qs := none
        body := some [("emails", getProp data "emails"),
                      ("customer_email", getProp data "customer_email"),
                      ("merchant_id", config.merchantId)] }
    Event.request options :: relayVerbatim (w.upstream options)

/-- Route `POST /actions` (lines 106-137). -/
def postActions (config : SwellRewards) (w : World) (req : Req) : List Event :=
  getUser w req fun user =>
    let data := req.body
    let data := setProp data "customer_email" (getProp user "email")
    let data := setProp data "customer_id" (getProp user "id")
    let options : Options :=
      { url := config.apiUrl.v2 ++ "/actions"
        method := .POST
        headers := some (credentialHeaders config)
        json := true
        qs := none
        body := some (assign (assign [] data) [("ip_address", req.ip)]) }
    Event.request options :: relayDecoded w (w.upstream options)

/-- Route `POST /customers` (lines 146-182). -/
def postCustomers (config : SwellRewards) (w : World) (req : Req) : List Event :=
  getUser w req fun user =>
    let data := req.body
    if !truthy (getProp data "first_name") then
      [Event.apiStatus (.str "First name is required.") 400]
    else if !truthy (getProp data "last_name") then
      [Event.apiStatus (.str "Last name is required.") 400]
    else
      let data := setProp data "id" (getProp user "id")
      let data := setProp data "email" (getProp user "email")
      let options : Options :=
        { url := config.apiUrl.v2 ++ "/customers"
          method := .POST
          headers := some (credentialHeaders config)
          json := true
          qs := none
          body := some data }
      Event.request options :: relayVerbatim (w.upstream options)

/-- Route `POST /customer_birthdays` (lines 187-217). -/
def postCustomerBirthdays (config : SwellRewards) (w : World) (req : Req) : List Event :=
  getUser w req fun user =>
    let data := req.body
    if !truthy (getProp data "day") || !truthy (getProp data "month")
        || !truthy (getProp data "year") then
      [Event.apiStatus (.str "Date is required.") 400]
    else
      let data := setProp data "customer_email" (getProp user "email")
      let options : Options :=
        { url := config.apiUrl.v2 ++ "/customer_birthdays"
          method := .POST
          headers := some (credentialHeaders config)
          json := true
          qs := none
          body := some data }
      Event.request options :: relayVerbatim (w.upstream options)

/-- Route `GET /customers/all` (lines 225-248). -/
def getCustomersAll (config : SwellRewards) (w : World) (req : Req) : List Event :=
  let options : Options :=
    { url := config.apiUrl.v2 ++ "/customers/all"
      method := .GET
      headers := some (credentialHeaders config)
      json := false
      qs := some req.query
      body := none }
  Event.request options :: relayDecoded w (w.upstream options)

/-- Route `GET /customers` (lines 256-284). -/
def getCustomers (config : SwellRewards) (w : World) (req : Req) : List Event :=
  getUser w req fun user =>
    let options : Options :=
      { url := config.apiUrl.v2 ++ "/customers"
        method := .GET
        headers := some (credentialHeaders config)
        json := false
        qs := some (assign (assign [] req.query)
                [("customer_id", getProp user "id"),
                 ("customer_email", getProp user "email")])
        body := none }
    Event.request options :: relayDecoded w (w.upstream options)

/-- Route `POST /redemptions` (lines 294-330). -/
def postRedemptions (config : SwellRewards) (w : World) (req : Req) : List Event :=
  getUser w req fun user =>
    let data := req.body
    if !truthy (getProp data "redemption_option_id") then
      [Event.apiStatus (.str "Redemption option ID is required.") 400]
    else
      let data := setProp data "customer_external_id" (getProp user "id")
      let data := setProp data "customer_email" (getProp user "email")
      let options : Options :=
        { url := config.apiUrl.v2 ++ "/redemptions"
          method := .POST
          headers := some (credentialHeaders config)
          json := true
          qs := none
          body := some data }
      Event.request options :: relayDecoded w (w.upstream options)

/-- Route `GET /redemption_options` (lines 337-359). -/
def getRedemptionOptions (config : SwellRewards) (w : World) (_req : Req) : List Event :=
  let options : Options :=
    { url := config.apiUrl.v2 ++ "/redemption_options"
      method := .GET
      headers := some (credentialHeaders config)
      json := false
      qs := none
      body := none }
  Event.request options :: relayDecoded w (w.upstream options)

/-- Route `GET /redemption_codes` (lines 369-397). -/
def getRedemptionCodes (config : SwellRewards) (w : World) (req : Req) : List Event :=
  if !truthy (getProp req.query "third_party_id") && !truthy (getProp req.query "code") then
    [Event.apiStatus (.str "Third-party Id or Code required.") 400]
  else
    let options : Options :=
      { url := config.apiUrl.v2 ++ "/redemption_codes"
        method := .GET
        headers := some (credentialHeaders config)
        json := false
        qs := some req.query
        body := none }
    Event.request options :: relayDecoded w (w.upstream options)

/-- The forwarding step of `GET /campaigns` (lines 415-436) for the query
object `qs`. -/
def forwardCampaigns (config : SwellRewards) (w : World) (qs : Obj) : List Event :=
  let options : Options :=
    { url := config.apiUrl.v2 ++ "/campaigns"
      method := .GET
      headers := some (credentialHeaders config)
      json := false
      qs := some qs
      body := none }
  Event.request options :: relayDecoded w (w.upstream options)

/-- Route `GET /campaigns` (lines 405-437). When `await getUser(req, res)`
throws, the async handler ends there. -/
def getCampaigns (config : SwellRewards) (w : World) (req : Req) : List Event :=
  let qs := req.query
  if truthy (getProp qs "with_status") then
    getUser w req fun user =>
      let qs := setProp qs "customer_id" (getProp user "id")
      let qs := setProp qs "customer_email" (getProp user "email")
      forwardCampaigns config w qs
  else
    forwardCampaigns config w qs

/-- Route `GET /vip_tiers` (lines 442-462). -/
def getVipTiers (config : SwellRewards) (w : World) (_req : Req) : List Event :=
  let options : Options :=
    { url := config.apiUrl.v2 ++ "/vip_tiers"
      method := .GET
      headers := some (credentialHeaders config)
      json := false
      qs := none
      body := none }
  Event.request options :: relayDecoded w (w.upstream options)

/-- The router `swellApi`: the handler registered for each route. -/
def swellApi (config : SwellRewards) (w : World) : Route → Req → List Event
  | .getCustomerDetails => getCustomerDetails config w
  | .postReferralEmailShares => postReferralEmailShares config w
  | .postActions => postActions config w
  | .postCustomers => postCustomers config w
  | .postCustomerBirthdays => postCustomerBirthdays config w
  | .getCustomersAll => getCustomersAll config w
  | .getCustomers => getCustomers config w
  | .postRedemptions => postRedemptions config w
  | .getRedemptionOptions => getRedemptionOptions config w
  | .getRedemptionCodes => getRedemptionCodes config w
  | .getCampaigns => getCampaigns config w
  | .getVipTiers => getVipTiers config w

/-! ## Observations on a run -/

/-- The options of the calls made to the loyalty API during a run. -/
def upstreamCalls : List Event → List Options
  | [] => []
  | .request o :: rest => o :: upstreamCalls rest
  | _ :: rest => upstreamCalls rest

/-- The responses written during a run: `(result, code)` of each
`apiStatus` call. -/
def responses : List Event → List (JsVal × Nat)
  | [] => []
  | .apiStatus r c :: rest => (r, c) :: responses rest
  | _ :: rest => responses rest

/-- The tokens passed to the user resolver during a run. -/
def resolverCalls : List Event → List JsVal
  | [] => []
  | .me t :: rest => t :: resolverCalls rest
  | _ :: rest => resolverCalls rest

/-- Whether the callback of the route decodes a string body with
`JSON.parse` (the nine routes with the `typeof json === 'string'` test) or
relays the body as received (the three routes without it). -/
def decodesBody : Route → Bool
  | .postReferralEmailShares => false
  | .postCustomers => false
  | .postCustomerBirthdays => false
  | _ => true

/-- The `request` callback of a route. -/
def relay (w : World) (r : Route) : UpstreamResult → List Event :=
  if decodesBody r then relayDecoded w else relayVerbatim

/-- The path appended to the base URL by each route. -/
def upstreamPath : Route → String
  | .getCustomerDetails => "/customer_details"
  | .postReferralEmailShares => "/referral_email_shares"
  | .postActions => "/actions"
  | .postCustomers => "/customers"
  | .postCustomerBirthdays => "/customer_birthdays"
  | .getCustomersAll => "/customers/all"
  | .getCustomers => "/customers"
  | .postRedemptions => "/redemptions"
  | .getRedemptionOptions => "/redemption_options"
  | .getRedemptionCodes => "/redemption_codes"
  | .getCampaigns => "/campaigns"
  | .getVipTiers => "/vip_tiers"

/-- The routes whose URL is built from `apiUrl.v1`; every other route builds
its URL from `apiUrl.v2`. -/
def usesV1 : Route → Bool
  | .getCustomerDetails => true
  | .postReferralEmailShares => true
  | _ => false

/-- A run that stops before the forwarding step: a validation failure, or a
rejected user resolution. -/
def Stopped (req : Req) (run : List Event) : Prop :=
  (∃ msg, run = [Event.apiStatus msg 400])
  ∨ (∃ msg, run = [Event.me (getProp req.query "token"), Event.apiStatus msg 400])
  ∨ (∃ err, run = [Event.me (getProp req.query "token"), Event.apiStatus err 500])

/-- A run that reaches the forwarding step with options `o`: at most the user
resolution comes before the single upstream call, then the callback of the
route runs on what the HTTP client returns. -/
def Forwarded (w : World) (r : Route) (req : Req) (o : Options) (run : List Event) : Prop :=
  run = Event.request o :: relay w r (w.upstream o)
  ∨ run = Event.me (getProp req.query "token") :: Event.request o :: relay w r (w.upstream o)

/-! ## Predicates on routes and requests used by the statements -/

/-- A request lacks a field its route requires: `customer_email` in the query
of `GET /customer_details` and in the body of `POST /referral_email_shares`;
`first_name` or `last_name` for `POST /customers`; `day`, `month` or `year`
for `POST /customer_birthdays`; `redemption_option_id` for
`POST /redemptions`; both `third_party_id` and `code` for
`GET /redemption_codes`. The other routes require nothing. -/
def requiredFieldMissing : Route → Req → Bool
  | .getCustomerDetails, req => !hasProp req.query "customer_email"
  | .postReferralEmailShares, req => !hasProp req.body "customer_email"
  | .postCustomers, req => !hasProp req.body "first_name" || !hasProp req.body "last_name"
  | .postCustomerBirthdays, req =>
    !hasProp req.body "day" || !hasProp req.body "month" || !hasProp req.body "year"
  | .postRedemptions, req => !hasProp req.body "redemption_option_id"
  | .getRedemptionCodes, req => !hasProp req.query "third_party_id" && !hasProp req.query "code"
  | _, _ => false

/-- The routes that resolve the user before anything else. -/
def authenticated : Route → Bool
  | .postActions => true
  | .postCustomers => true
  | .postCustomerBirthdays => true
  | .getCustomers => true
  | .postRedemptions => true
  | _ => false

/-- The request is handled by an authenticated route: one of the five routes
that always resolve the user, or `GET /campaigns` with `with_status` set. -/
def requiresUser : Route → Req → Bool
  | .getCampaigns, req => truthy (getProp req.query "with_status")
  | r, _ => authenticated r

/-! ## Sample data -/

/-- A sample configuration. -/
def sampleConfig : SwellRewards :=
  { apiUrl := { v1 := "https://loyalty.example/v1", v2 := "https://loyalty.example/v2" }
    merchantId := .str "m-1"
    guid := .str "guid-1"
    apiKey := .str "key-1" }

/-- The user record of the sample worlds. -/
def sampleUser : Obj := [("id", .str "u1"), ("email", .str "a@x.com")]

/-- A `JSON.parse` that knows the text of the empty object only. -/
def sampleParse (s : String) : Option JsVal :=
  if s = "\x7b\x7d" then some (.obj []) else none

/-- A world where everything succeeds: the user resolves to `sampleUser` and
the upstream answers 200 with the text of the empty object. -/
def okWorld : World :=
  { resolveUser := fun _ => .ok sampleUser
    upstream := fun _ => { error := .null, response := some ⟨200⟩, body := .str "\x7b\x7d" }
    jsonParse := sampleParse }

/-- The rejection value of the failing resolver. -/
def sampleAuthError : JsVal := .obj [("code", .num 401), ("result", .str "not authorized")]

/-- A world where the user resolver rejects. -/
def rejectingWorld : World :=
  { resolveUser := fun _ => .error sampleAuthError
    upstream := okWorld.upstream
    jsonParse := sampleParse }

/-- The error object of the failing HTTP client. -/
def sampleTransportError : JsVal := .obj [("code", .str "ECONNREFUSED")]

/-- A world where the HTTP client fails: error set, no response, no body. -/
def offlineWorld : World :=
  { resolveUser := fun _ => .ok sampleUser
    upstream := fun _ => { error := sampleTransportError, response := none, body := .undefined }
    jsonParse := sampleParse }

/-- A request with nothing in it. -/
def emptyReq : Req := { query := [], body := [], ip := .str "10.0.0.7" }

/-- A request to `POST /referral_email_shares` that passes validation. -/
def shareReq : Req :=
  { query := [], body := [("customer_email", .str "a@x.com")], ip := .str "10.0.0.7" }

/-- A request to `POST /actions` with the body `{type: "purchase"}`. -/
def purchaseReq : Req :=
  { query := [("token", .str "t-1")], body := [("type", .str "purchase")], ip := .str "10.0.0.7" }

/-- A request to `POST /actions` whose JSON body has an own `__proto__` key:
`{"type": "purchase", "__proto__": {"admin": true}}`. -/
def protoReq : Req :=
  { query := [("token", .str "t-1")],
    body := [("type", .str "purchase"), ("__proto__", .obj [("admin", .bool true)])],
    ip := .str "10.0.0.7" }

/-- A request to `GET /campaigns` with `with_status=1` and a caller-supplied
`customer_id`. -/
def statusReq : Req :=
  { query := [("with_status", .str "1"), ("customer_id", .str "someone-else")],
    body := [], ip := .str "10.0.0.7" }

/-- The identity fields a route writes into the forwarded payload, each with
the property of the resolved user it takes its value from, in the order the
route writes them. -/
def identityFields : Route → List (String × String)
  | .postActions => [("customer_email", "email"), ("customer_id", "id")]
  | .postCustomers => [("id", "id"), ("email", "email")]
  | .postCustomerBirthdays => [("customer_email", "email")]
  | .getCustomers => [("customer_id", "id"), ("customer_email", "email")]
  | .postRedemptions => [("customer_external_id", "id"), ("customer_email", "email")]
  | _ => []

/-- Two objects have the same properties in the same order and the same
value at each of them, except possibly at the properties named in `fs`. -/
def agreeOutside (fs : List String) : Obj → Obj → Prop
  | [], [] => True
  | (k1, v1) :: r1, (k2, v2) :: r2 => k1 = k2 ∧ (k1 ∉ fs → v1 = v2) ∧ agreeOutside fs r1 r2
  | _, _ => False

/-- Two requests differ at most in the caller-supplied values of the identity
fields of the route. -/
def sameUpToIdentity (r : Route) (req1 req2 : Req) : Prop :=
  req1.ip = req2.ip
    ∧ agreeOutside ((identityFields r).map Prod.fst) req1.query req2.query
    ∧ agreeOutside ((identityFields r).map Prod.fst) req1.body req2.body

/-- The payload of an upstream call: its body, or its query when it has no
body. -/
def payload (o : Options) : Option Obj :=
  match o.body with
  | some b => some b
  | none => o.qs

/-- A request to `POST /redemptions` made by an honest caller. -/
def redeemReq : Req :=
  { query := [("token", .str "t-1")],
    body := [("redemption_option_id", .num 7), ("customer_email", .str "a@x.com")],
    ip := .str "10.0.0.7" }

/-- The same request with somebody else's email in the identity field. -/
def spoofedRedeemReq : Req :=
  { query := [("token", .str "t-1")],
    body := [("redemption_option_id", .num 7), ("customer_email", .str "victim@x.com")],
    ip := .str "10.0.0.7" }

/-! ## Properties of objects -/

theorem lookup_append_single (o : Obj) (k : String) (v : JsVal) (k' : String) :
    lookup (o ++ [(k, v)]) k' = if k = k' then some v else lookup o k' := by
  induction o with
  | nil => simp [lookup]
  | cons p rest ih =>
    obtain ⟨a, b⟩ := p
    simp only [List.cons_append, lookup, List.append_eq]
    rw [ih]
    by_cases h : k = k'
    · simp [h]
    · simp [h]

theorem lookup_map_replace (o : Obj) (k : String) (v : JsVal) (k' : String) :
    lookup (o.map (fun p => if p.1 = k then (k, v) else p)) k'
      = if k = k' then (lookup o k).map (fun _ => v) else lookup o k' := by
  induction o with
  | nil => simp [lookup]
  | cons p rest ih =>
    obtain ⟨a, b⟩ := p
    by_cases ha : a = k
    · have hm : List.map (fun p : String × JsVal => if p.1 = k then (k, v) else p)
          ((a, b) :: rest)
          = (k, v) :: List.map (fun p : String × JsVal => if p.1 = k then (k, v) else p) rest := by
        simp [ha]
      rw [hm]
      simp only [lookup]
      rw [ih]
      by_cases h : k = k'
      · subst h
        cases hl : lookup rest k <;> simp [ha]
      · cases hl : lookup rest k' <;> simp [h, ha]
    · have hm : List.map (fun p : String × JsVal => if p.1 = k then (k, v) else p)
          ((a, b) :: rest)
          = (a, b) :: List.map (fun p : String × JsVal => if p.1 = k then (k, v) else p) rest := by
        simp [ha]
      rw [hm]
      simp only [lookup]
      rw [ih]
      by_cases h : k = k'
      · subst h
        cases hl : lookup rest k <;> simp [ha]
      · cases hl : lookup rest k' <;> simp [h]

theorem lookup_setProp (o : Obj) (k : String) (v : JsVal) (k' : String) :
    lookup (setProp o k v) k' = if k = k' then some v else lookup o k' := by
  unfold setProp
  by_cases hp : hasProp o k = true
  · rw [if_pos hp, lookup_map_replace]
    by_cases h : k = k'
    · simp only [h, if_true]
      subst h
      unfold hasProp at hp
      cases hl : lookup o k with
      | some y => simp
      | none => simp [hl] at hp
    · simp [h]
  · rw [if_neg hp, lookup_append_single]

theorem assign_cons_proto (t : Obj) (b : JsVal) (rest : Obj) :
    assign t (("__proto__", b) :: rest) = assign t rest := by
  simp [assign]

theorem assign_cons_other (t : Obj) (a : String) (b : JsVal) (rest : Obj)
    (h : a ≠ "__proto__") :
    assign t ((a, b) :: rest) = assign (setProp t a b) rest := by
  simp [assign, h]

theorem lookup_assign (s t : Obj) (k : String) :
    lookup (assign t s) k
      = if k = "__proto__" then lookup t k
        else match lookup s k with
          | some x => some x
          | none => lookup t k := by
  induction s generalizing t with
  | nil => simp [assign, lookup]
  | cons p rest ih =>
    obtain ⟨a, b⟩ := p
    by_cases ha : a = "__proto__"
    · subst ha
      rw [assign_cons_proto, ih]
      by_cases hk : k = "__proto__"
      · simp [hk]
      · simp only [hk, if_false, lookup]
        cases hl : lookup rest k with
        | some y => simp
        | none => simp [Ne.symm hk]
    · rw [assign_cons_other t a b rest ha, ih, lookup_setProp]
      by_cases hk : k = "__proto__"
      · subst hk
        simp [ha]
      · simp only [hk, if_false, lookup]
        cases hl : lookup rest k with
        | some y => simp
        | none => by_cases h : a = k <;> simp [h]

theorem getProp_setProp (o : Obj) (k : String) (v : JsVal) (k' : String) :
    getProp (setProp o k v) k' = if k = k' then v else getProp o k' := by
  unfold getProp
  rw [lookup_setProp]
  by_cases h : k = k' <;> simp [h]

theorem hasProp_setProp (o : Obj) (k : String) (v : JsVal) (k' : String) :
    hasProp (setProp o k v) k' = (decide (k = k') || hasProp o k') := by
  unfold hasProp
  rw [lookup_setProp]
  by_cases h : k = k' <;> simp [h]

theorem lookup_assign_empty (s : Obj) (k : String) :
    lookup (assign [] s) k = if k = "__proto__" then none else lookup s k := by
  rw [lookup_assign]
  by_cases hk : k = "__proto__"
  · simp [hk, lookup]
  · simp only [hk, if_false]
    cases lookup s k <;> simp [lookup]

/-! ## Shape of a run -/

@[simp] theorem upstreamCalls_relayDecoded (w : World) (u : UpstreamResult) :
    upstreamCalls (relayDecoded w u) = [] := by
  unfold relayDecoded
  split
  · rfl
  · dsimp only
    split <;> rfl

@[simp] theorem upstreamCalls_relayVerbatim (u : UpstreamResult) :
    upstreamCalls (relayVerbatim u) = [] := by
  unfold relayVerbatim
  split
  · rfl
  · split <;> rfl

@[simp] theorem resolverCalls_relayDecoded (w : World) (u : UpstreamResult) :
    resolverCalls (relayDecoded w u) = [] := by
  unfold relayDecoded
  split
  · rfl
  · dsimp only
    split <;> rfl

@[simp] theorem resolverCalls_relayVerbatim (u : UpstreamResult) :
    resolverCalls (relayVerbatim u) = [] := by
  unfold relayVerbatim
  split
  · rfl
  · split <;> rfl

theorem responses_relayDecoded_length (w : World) (u : UpstreamResult) :
    (responses (relayDecoded w u)).length ≤ 1 := by
  unfold relayDecoded
  split
  · simp [responses]
  · dsimp only
    split <;> simp [responses]

theorem responses_relayVerbatim_length (u : UpstreamResult) :
    (responses (relayVerbatim u)).length ≤ 1 := by
  unfold relayVerbatim
  split
  · simp [responses]
  · split <;> simp [responses]

theorem responses_relay_length (w : World) (r : Route) (u : UpstreamResult) :
    (responses (relay w r u)).length ≤ 1 := by
  unfold relay
  split
  · exact responses_relayDecoded_length w u
  · exact responses_relayVerbatim_length u

@[simp] theorem upstreamCalls_relay (w : World) (r : Route) (u : UpstreamResult) :
    upstreamCalls (relay w r u) = [] := by
  unfold relay
  split <;> simp

/-- Every run either stops with one response and no upstream call, or makes
exactly one upstream call followed by the callback of the route; the call
goes to the base URL of the route with the headers of that API generation. -/
theorem run_shape (config : SwellRewards) (w : World) (r : Route) (req : Req) :
    Stopped req (swellApi config w r req)
      ∨ ∃ o, Forwarded w r req o (swellApi config w r req)
          ∧ o.url = (if usesV1 r then config.apiUrl.v1 else config.apiUrl.v2) ++ upstreamPath r
          ∧ o.headers = (if usesV1 r then none else some (credentialHeaders config)) := by
  cases r
  case getCustomerDetails =>
    simp only [swellApi, getCustomerDetails]
    split
    · exact Or.inl (Or.inl ⟨_, rfl⟩)
    · exact Or.inr ⟨_, Or.inl rfl, rfl, rfl⟩
  case postReferralEmailShares =>
    simp only [swellApi, postReferralEmailShares]
    split
    · exact Or.inl (Or.inl ⟨_, rfl⟩)
    · exact Or.inr ⟨_, Or.inl rfl, rfl, rfl⟩
  case postActions =>
    simp only [swellApi, postActions, getUser]
    split
    · exact Or.inr ⟨_, Or.inr rfl, rfl, rfl⟩
    · exact Or.inl (Or.inr (Or.inr ⟨_, rfl⟩))
  case postCustomers =>
    simp only [swellApi, postCustomers, getUser]
    split
    · split
      · exact Or.inl (Or.inr (Or.inl ⟨_, rfl⟩))
      · split
        · exact Or.inl (Or.inr (Or.inl ⟨_, rfl⟩))
        · exact Or.inr ⟨_, Or.inr rfl, rfl, rfl⟩
    · exact Or.inl (Or.inr (Or.inr ⟨_, rfl⟩))
  case postCustomerBirthdays =>
    simp only [swellApi, postCustomerBirthdays, getUser]
    split
    · split
      · exact Or.inl (Or.inr (Or.inl ⟨_, rfl⟩))
      · exact Or.inr ⟨_, Or.inr rfl, rfl, rfl⟩
    · exact Or.inl (Or.inr (Or.inr ⟨_, rfl⟩))
  case getCustomersAll =>
    exact Or.inr ⟨_, Or.inl rfl, rfl, rfl⟩
  case getCustomers =>
    simp only [swellApi, getCustomers, getUser]
    split
    · exact Or.inr ⟨_, Or.inr rfl, rfl, rfl⟩
    · exact Or.inl (Or.inr (Or.inr ⟨_, rfl⟩))
  case postRedemptions =>
    simp only [swellApi, postRedemptions, getUser]
    split
    · split
      · exact Or.inl (Or.inr (Or.inl ⟨_, rfl⟩))
      · exact Or.inr ⟨_, Or.inr rfl, rfl, rfl⟩
    · exact Or.inl (Or.inr (Or.inr ⟨_, rfl⟩))
  case getRedemptionOptions =>
    exact Or.inr ⟨_, Or.inl rfl, rfl, rfl⟩
  case getRedemptionCodes =>
    simp only [swellApi, getRedemptionCodes]
    split
    · exact Or.inl (Or.inl ⟨_, rfl⟩)
    · exact Or.inr ⟨_, Or.inl rfl, rfl, rfl⟩
  case getCampaigns =>
    simp only [swellApi, getCampaigns, getUser, forwardCampaigns]
    split
    · split
      · exact Or.inr ⟨_, Or.inr rfl, rfl, rfl⟩
      · exact Or.inl (Or.inr (Or.inr ⟨_, rfl⟩))
    · exact Or.inr ⟨_, Or.inl rfl, rfl, rfl⟩
  case getVipTiers =>
    exact Or.inr ⟨_, Or.inl rfl, rfl, rfl⟩

theorem stopped_upstreamCalls {req : Req} {run : List Event} (h : Stopped req run) :
    upstreamCalls run = [] := by
  rcases h with ⟨_, rfl⟩ | ⟨_, rfl⟩ | ⟨_, rfl⟩ <;> rfl

theorem stopped_responses_length {req : Req} {run : List Event} (h : Stopped req run) :
    (responses run).length = 1 := by
  rcases h with ⟨_, rfl⟩ | ⟨_, rfl⟩ | ⟨_, rfl⟩ <;> rfl

theorem forwarded_upstreamCalls {w : World} {r : Route} {req : Req} {o : Options}
    {run : List Event} (h : Forwarded w r req o run) : upstreamCalls run = [o] := by
  rcases h with rfl | rfl <;> simp [upstreamCalls]

theorem forwarded_responses {w : World} {r : Route} {req : Req} {o : Options}
    {run : List Event} (h : Forwarded w r req o run) :
    responses run = responses (relay w r (w.upstream o)) := by
  rcases h with rfl | rfl <;> simp [responses]

/-- The options of an upstream call seen in a run are those of its
forwarding step. -/
theorem forwarded_of_mem (config : SwellRewards) (w : World) (r : Route) (req : Req)
    (o : Options) (ho : o ∈ upstreamCalls (swellApi config w r req)) :
    Forwarded w r req o (swellApi config w r req)
      ∧ o.url = (if usesV1 r then config.apiUrl.v1 else config.apiUrl.v2) ++ upstreamPath r
      ∧ o.headers = (if usesV1 r then none else some (credentialHeaders config)) := by
  rcases run_shape config w r req with hs | ⟨o', hf, hu, hh⟩
  · rw [stopped_upstreamCalls hs] at ho
    simp at ho
  · rw [forwarded_upstreamCalls hf] at ho
    have : o = o' := by simpa using ho
    subst this
    exact ⟨hf, hu, hh⟩

theorem responses_relay_error (w : World) (r : Route) (u : UpstreamResult)
    (he : truthy u.error = true) : responses (relay w r u) = [(u.error, 500)] := by
  unfold relay relayDecoded relayVerbatim
  split <;> simp [he, responses]

theorem responses_relay_decoded (w : World) (r : Route) (u : UpstreamResult)
    (hr : decodesBody r = true) (he : truthy u.error = false) (s : String)
    (hb : u.body = JsVal.str s) (v : JsVal) (hp : w.jsonParse s = some v)
    (resp : Response) (hresp : u.response = some resp) :
    responses (relay w r u) = [(v, resp.statusCode)] := by
  unfold relay relayDecoded
  simp [hr, he, hb, hp, hresp, responses]

theorem responses_relay_verbatim (w : World) (r : Route) (u : UpstreamResult)
    (hr : decodesBody r = false) (he : truthy u.error = false)
    (resp : Response) (hresp : u.response = some resp) :
    responses (relay w r u) = [(u.body, resp.statusCode)] := by
  unfold relay relayVerbatim
  simp [hr, he, hresp, responses]

/-! ## Credentials, relay and single response -/

/-- C3: every upstream call of every route goes either to a URL built from
`apiUrl.v1` (the two v1 routes) and then has no headers at all, or to a URL
built from `apiUrl.v2` (the ten other routes) and then carries the headers
`x-guid` = configured guid and `x-api-key` = configured apiKey. -/
theorem credentials_follow_api_version (config : SwellRewards) (w : World) (r : Route)
    (req : Req) (o : Options) (ho : o ∈ upstreamCalls (swellApi config w r req)) :
    (usesV1 r = true → o.url = config.apiUrl.v1 ++ upstreamPath r ∧ o.headers = none)
    ∧ (usesV1 r = false →
        o.url = config.apiUrl.v2 ++ upstreamPath r
        ∧ o.headers = some [("x-guid", config.guid), ("x-api-key", config.apiKey)]) := by
  obtain ⟨_, hu, hh⟩ := forwarded_of_mem config w r req o ho
  constructor
  · intro h1
    rw [h1] at hu hh
    exact ⟨hu, hh⟩
  · intro h2
    rw [h2] at hu hh
    exact ⟨hu, hh⟩

/-- C5: on every route, when the forwarding step is reached and the HTTP
client hands the callback a truthy error (every error object is truthy), the
only response written is that error with status 500, whatever the response
and body arguments are. -/
theorem transport_error_gives_500 (config : SwellRewards) (w : World) (r : Route)
    (req : Req) (o : Options) (ho : o ∈ upstreamCalls (swellApi config w r req))
    (he : truthy (w.upstream o).error = true) :
    responses (swellApi config w r req) = [((w.upstream o).error, 500)] := by
  obtain ⟨hf, _, _⟩ := forwarded_of_mem config w r req o ho
  rw [forwarded_responses hf]
  exact responses_relay_error w r _ he

/-- C9: on every route and for every behaviour of the user resolver, the HTTP
client and `JSON.parse`, a run writes at most one response. -/
theorem at_most_one_response (config : SwellRewards) (w : World) (r : Route) (req : Req) :
    (responses (swellApi config w r req)).length ≤ 1 := by
  rcases run_shape config w r req with hs | ⟨o, hf, _, _⟩
  · exact le_of_eq (stopped_responses_length hs)
  · rw [forwarded_responses hf]
    exact responses_relay_length w r _

/-- Witness of C3 on a v2 route, `GET /vip_tiers`: the call carries both
credential headers. -/
theorem credentials_follow_api_version_witness :
    (⟨"https://loyalty.example/v2/vip_tiers", .GET, some (credentialHeaders sampleConfig),
        false, none, none⟩ : Options)
      ∈ upstreamCalls (swellApi sampleConfig okWorld Route.getVipTiers emptyReq)
    ∧ "https://loyalty.example/v2/vip_tiers"
        = sampleConfig.apiUrl.v2 ++ upstreamPath Route.getVipTiers
    ∧ some (credentialHeaders sampleConfig)
        = some [("x-guid", sampleConfig.guid), ("x-api-key", sampleConfig.apiKey)] :=
  ⟨List.Mem.head _,
    (credentials_follow_api_version sampleConfig okWorld Route.getVipTiers emptyReq
      ⟨"https://loyalty.example/v2/vip_tiers", .GET, some (credentialHeaders sampleConfig),
        false, none, none⟩
      (List.Mem.head _)).2 rfl⟩

/-- Witness of C5: `GET /customers/all` with an unreachable upstream. -/
theorem transport_error_gives_500_witness :
    responses (swellApi sampleConfig offlineWorld Route.getCustomersAll emptyReq)
      = [(sampleTransportError, 500)] :=
  transport_error_gives_500 sampleConfig offlineWorld Route.getCustomersAll emptyReq
    { url := "https://loyalty.example/v2/customers/all", method := .GET,
      headers := some (credentialHeaders sampleConfig), json := false, qs := some [], body := none }
    (List.Mem.head _) rfl

/-! ## Body decoding -/

/-- C4, as amended: on every route, when the forwarding step is reached, the
error argument is falsy and the body is a string that `JSON.parse` accepts,
the only response written carries the upstream status code and, on the nine
routes whose callback decodes, the parsed value; on the three routes that
call the HTTP client with `json: true` and relay its body as received
(`POST /referral_email_shares`, `POST /customers`,
`POST /customer_birthdays`), the string itself. -/
theorem relay_of_json_string (config : SwellRewards) (w : World) (r : Route)
    (req : Req) (o : Options)
    (ho : o ∈ upstreamCalls (swellApi config w r req))
    (he : truthy (w.upstream o).error = false)
    (s : String) (hb : (w.upstream o).body = JsVal.str s)
    (v : JsVal) (hp : w.jsonParse s = some v)
    (resp : Response) (hresp : (w.upstream o).response = some resp) :
    responses (swellApi config w r req)
      = [(if decodesBody r then v else JsVal.str s, resp.statusCode)] := by
  obtain ⟨hf, _, _⟩ := forwarded_of_mem config w r req o ho
  rw [forwarded_responses hf]
  cases hr : decodesBody r
  · rw [responses_relay_verbatim w r _ hr he resp hresp, hb]
    simp
  · rw [responses_relay_decoded w r _ hr he s hb v hp resp hresp]
    simp

/-- Witness of C4 as amended: `GET /vip_tiers` relays the parsed empty
object. -/
theorem relay_of_json_string_witness :
    responses (swellApi sampleConfig okWorld Route.getVipTiers emptyReq)
      = [(if decodesBody Route.getVipTiers then JsVal.obj [] else JsVal.str "\x7b\x7d", 200)] :=
  relay_of_json_string sampleConfig okWorld Route.getVipTiers emptyReq
    ⟨"https://loyalty.example/v2/vip_tiers", .GET, some (credentialHeaders sampleConfig),
      false, none, none⟩
    (List.Mem.head _) rfl "\x7b\x7d" rfl (JsVal.obj []) rfl ⟨200⟩ rfl

/-- C4 fails as stated: `POST /referral_email_shares` reaches the forwarding
step, the upstream answers without error with a string body that
`JSON.parse` accepts, and the response written is the raw string, not the
parsed value. -/
theorem relay_parsed_fails_on_verbatim_route :
    ¬ ∀ (config : SwellRewards) (w : World) (r : Route) (req : Req) (o : Options),
        o ∈ upstreamCalls (swellApi config w r req) →
        truthy (w.upstream o).error = false →
        ∀ (s : String), (w.upstream o).body = JsVal.str s →
        ∀ (v : JsVal), w.jsonParse s = some v →
        ∀ (resp : Response), (w.upstream o).response = some resp →
        responses (swellApi config w r req) = [(v, resp.statusCode)] := by
  intro h
  have h1 := h sampleConfig okWorld Route.postReferralEmailShares shareReq
    ⟨"https://loyalty.example/v1/referral_email_shares", .POST, none, true, none,
      some [("emails", .undefined), ("customer_email", .str "a@x.com"),
            ("merchant_id", .str "m-1")]⟩
    (List.Mem.head _) rfl "\x7b\x7d" rfl (JsVal.obj []) rfl ⟨200⟩ rfl
  have h2 : responses (swellApi sampleConfig okWorld Route.postReferralEmailShares shareReq)
      = [(JsVal.str "\x7b\x7d", 200)] := rfl
  rw [h2] at h1
  simp at h1

/-! ## Pass-through of the query -/

/-- C8: `GET /customers/all` makes exactly one upstream call for every
incoming query, with no validation and no user resolution before it, and the
forwarded query is the incoming query object itself. -/
theorem customers_all_forwards_query (config : SwellRewards) (w : World) (req : Req) :
    upstreamCalls (swellApi config w Route.getCustomersAll req)
        = [{ url := config.apiUrl.v2 ++ "/customers/all"
             method := .GET
             headers := some (credentialHeaders config)
             json := false
             qs := some req.query
             body := none }]
      ∧ resolverCalls (swellApi config w Route.getCustomersAll req) = [] := by
  simp [swellApi, getCustomersAll, upstreamCalls, resolverCalls]

/-! ## Validation and user resolution -/

theorem truthy_getProp_of_not_hasProp (o : Obj) (k : String) (h : hasProp o k = false) :
    truthy (getProp o k) = false := by
  unfold hasProp at h
  unfold getProp
  cases hl : lookup o k with
  | some v => simp [hl] at h
  | none => rfl

/-- C2: on the five routes that always resolve the user, and on
`GET /campaigns` with `with_status` set, when the user resolver rejects with
`e` no upstream call is made and the only response written is the one
`getUser` writes: `e` with status 500. -/
theorem resolver_failure_is_relayed (config : SwellRewards) (w : World) (r : Route)
    (req : Req) (e : JsVal) (hr : requiresUser r req = true)
    (hf : w.resolveUser req = Except.error e) :
    upstreamCalls (swellApi config w r req) = []
      ∧ responses (swellApi config w r req) = [(e, 500)] := by
  cases r <;> simp [requiresUser, authenticated] at hr <;>
    simp [swellApi, postActions, postCustomers, postCustomerBirthdays, getCustomers,
      postRedemptions, getCampaigns, getUser, hf, hr, upstreamCalls, responses]

/-- Witness of C2: `POST /customers` with a rejecting resolver. -/
theorem resolver_failure_is_relayed_witness :
    upstreamCalls (swellApi sampleConfig rejectingWorld Route.postCustomers emptyReq) = []
      ∧ responses (swellApi sampleConfig rejectingWorld Route.postCustomers emptyReq)
          = [(sampleAuthError, 500)] :=
  resolver_failure_is_relayed sampleConfig rejectingWorld Route.postCustomers emptyReq
    sampleAuthError rfl rfl

/-- C1 fails as stated: `POST /customers` without `first_name` and
`last_name`, with a rejecting user resolver, answers 500 and not 400. -/
theorem missing_field_not_always_400 :
    ¬ ∀ (config : SwellRewards) (w : World) (r : Route) (req : Req),
        requiredFieldMissing r req = true →
        (∃ msg, responses (swellApi config w r req) = [(msg, 400)])
          ∧ upstreamCalls (swellApi config w r req) = [] := by
  intro h
  obtain ⟨⟨msg, hmsg⟩, _⟩ := h sampleConfig rejectingWorld Route.postCustomers emptyReq rfl
  have h2 : responses (swellApi sampleConfig rejectingWorld Route.postCustomers emptyReq)
      = [(sampleAuthError, 500)] := rfl
  rw [h2] at hmsg
  simp at hmsg

/-- C1, as amended: when a required field is missing no upstream call is
made; the only response has status 400 on the three routes that validate
first, and on the three authenticated routes when the user resolves; when
the resolver of an authenticated route rejects with `e`, the only response
is `e` with status 500. -/
theorem missing_field_stops_before_upstream (config : SwellRewards) (w : World)
    (r : Route) (req : Req) (hm : requiredFieldMissing r req = true) :
    upstreamCalls (swellApi config w r req) = []
      ∧ ((authenticated r = false ∨ ∃ user, w.resolveUser req = Except.ok user) →
          ∃ msg, responses (swellApi config w r req) = [(msg, 400)])
      ∧ (authenticated r = true → ∀ e, w.resolveUser req = Except.error e →
          responses (swellApi config w r req) = [(e, 500)]) := by
  cases r <;> simp only [requiredFieldMissing, Bool.or_eq_true, Bool.and_eq_true,
      Bool.not_eq_true', Bool.false_eq_true] at hm
  case getCustomerDetails =>
    have h1 := truthy_getProp_of_not_hasProp _ _ hm
    simp [swellApi, getCustomerDetails, h1, upstreamCalls, responses, authenticated]
  case postReferralEmailShares =>
    have h1 := truthy_getProp_of_not_hasProp _ _ hm
    simp [swellApi, postReferralEmailShares, h1, upstreamCalls, responses, authenticated]
  case getRedemptionCodes =>
    have h1 := truthy_getProp_of_not_hasProp _ _ hm.1
    have h2 := truthy_getProp_of_not_hasProp _ _ hm.2
    simp [swellApi, getRedemptionCodes, h1, h2, upstreamCalls, responses, authenticated]
  case postCustomers =>
    cases hres : w.resolveUser req with
    | error e =>
      simp [swellApi, postCustomers, getUser, hres, upstreamCalls, responses, authenticated]
    | ok user =>
      rcases hm with hm | hm
      · have h1 := truthy_getProp_of_not_hasProp _ _ hm
        simp [swellApi, postCustomers, getUser, hres, h1, upstreamCalls, responses,
          authenticated]
      · have h1 := truthy_getProp_of_not_hasProp _ _ hm
        by_cases h0 : truthy (getProp req.body "first_name") = true <;>
          simp [swellApi, postCustomers, getUser, hres, h0, h1, upstreamCalls, responses,
            authenticated]
  case postCustomerBirthdays =>
    cases hres : w.resolveUser req with
    | error e =>
      simp [swellApi, postCustomerBirthdays, getUser, hres, upstreamCalls, responses,
        authenticated]
    | ok user =>
      have hv : (!truthy (getProp req.body "day") || !truthy (getProp req.body "month")
          || !truthy (getProp req.body "year")) = true := by
        rcases hm with (hm | hm) | hm <;>
          simp [truthy_getProp_of_not_hasProp _ _ hm]
      simp only [swellApi, postCustomerBirthdays, getUser, hres, hv]
      simp [upstreamCalls, responses, authenticated]
  case postRedemptions =>
    cases hres : w.resolveUser req with
    | error e =>
      simp [swellApi, postRedemptions, getUser, hres, upstreamCalls, responses,
        authenticated]
    | ok user =>
      have h1 := truthy_getProp_of_not_hasProp _ _ hm
      simp [swellApi, postRedemptions, getUser, hres, h1, upstreamCalls, responses,
        authenticated]

/-- Witness of C1 as amended: `GET /redemption_codes` with an empty query
answers 400 without calling the upstream. -/
theorem missing_field_stops_before_upstream_witness :
    upstreamCalls (swellApi sampleConfig okWorld Route.getRedemptionCodes emptyReq) = []
      ∧ ∃ msg, responses (swellApi sampleConfig okWorld Route.getRedemptionCodes emptyReq)
          = [(msg, 400)] :=
  ⟨(missing_field_stops_before_upstream sampleConfig okWorld Route.getRedemptionCodes
      emptyReq rfl).1,
   (missing_field_stops_before_upstream sampleConfig okWorld Route.getRedemptionCodes
      emptyReq rfl).2.1 (Or.inl rfl)⟩

/-! ## Enrichment of the forwarded payload -/

/-- C7: `GET /campaigns` with a falsy or absent `with_status` never calls the
user resolver and forwards the incoming query; with a truthy `with_status`
and a user that resolves, it forwards the incoming query with `customer_id`
and `customer_email` set to the id and email of the user, every other
parameter as received. -/
theorem campaigns_user_resolution (config : SwellRewards) (w : World) (req : Req) :
    (truthy (getProp req.query "with_status") = false →
        resolverCalls (swellApi config w Route.getCampaigns req) = []
        ∧ ∃ o, upstreamCalls (swellApi config w Route.getCampaigns req) = [o]
            ∧ o.qs = some req.query)
    ∧ (truthy (getProp req.query "with_status") = true →
        ∀ user, w.resolveUser req = Except.ok user →
        ∃ o q, upstreamCalls (swellApi config w Route.getCampaigns req) = [o]
            ∧ o.qs = some q
            ∧ ∀ k, lookup q k =
                if k = "customer_email" then some (getProp user "email")
                else if k = "customer_id" then some (getProp user "id")
                else lookup req.query k) := by
  constructor
  · intro h
    simp [swellApi, getCampaigns, forwardCampaigns, h, upstreamCalls, resolverCalls]
  · intro h user hu
    refine ⟨⟨config.apiUrl.v2 ++ "/campaigns", .GET, some (credentialHeaders config), false,
      some (setProp (setProp req.query "customer_id" (getProp user "id"))
        "customer_email" (getProp user "email")), none⟩,
      setProp (setProp req.query "customer_id" (getProp user "id"))
        "customer_email" (getProp user "email"), ?_, rfl, ?_⟩
    · simp [swellApi, getCampaigns, forwardCampaigns, getUser, h, hu, upstreamCalls]
    · intro k
      rw [lookup_setProp, lookup_setProp]
      by_cases h1 : k = "customer_email"
      · simp [h1]
      · by_cases h2 : k = "customer_id"
        · simp [h2]
        · simp [h1, h2, Ne.symm h1, Ne.symm h2]

/-- Witness of C7: without `with_status` the resolver is not called; with
`with_status=1` the caller-supplied `customer_id` is overridden. -/
theorem campaigns_user_resolution_witness :
    (resolverCalls (swellApi sampleConfig okWorld Route.getCampaigns emptyReq) = []
      ∧ ∃ o, upstreamCalls (swellApi sampleConfig okWorld Route.getCampaigns emptyReq) = [o]
          ∧ o.qs = some emptyReq.query)
    ∧ ∃ o q, upstreamCalls (swellApi sampleConfig okWorld Route.getCampaigns statusReq) = [o]
        ∧ o.qs = some q
        ∧ ∀ k, lookup q k =
            if k = "customer_email" then some (getProp sampleUser "email")
            else if k = "customer_id" then some (getProp sampleUser "id")
            else lookup statusReq.query k :=
  ⟨(campaigns_user_resolution sampleConfig okWorld emptyReq).1 rfl,
   (campaigns_user_resolution sampleConfig okWorld statusReq).2 rfl sampleUser rfl⟩

/-- C6 fails as stated: the JSON body
`{"type": "purchase", "__proto__": {"admin": true}}` has an own property
`__proto__` that the forwarded body lacks, because `Object.assign` hands
that key to the prototype setter of the fresh target. -/
theorem actions_body_loses_proto_key :
    ¬ ∀ (config : SwellRewards) (w : World) (req : Req) (user : Obj),
        w.resolveUser req = Except.ok user →
        ∃ o b, upstreamCalls (swellApi config w Route.postActions req) = [o]
          ∧ o.url = config.apiUrl.v2 ++ "/actions"
          ∧ o.body = some b
          ∧ ∀ k, lookup b k =
              if k = "ip_address" then some req.ip
              else if k = "customer_id" then some (getProp user "id")
              else if k = "customer_email" then some (getProp user "email")
              else lookup req.body k := by
  intro h
  obtain ⟨o, b, ho, _, hb, hk⟩ := h sampleConfig okWorld protoReq sampleUser rfl
  have hrun : upstreamCalls (swellApi sampleConfig okWorld Route.postActions protoReq)
      = [{ url := "https://loyalty.example/v2/actions"
           method := .POST
           headers := some [("x-guid", .str "guid-1"), ("x-api-key", .str "key-1")]
           json := true
           qs := none
           body := some [("type", .str "purchase"), ("customer_email", .str "a@x.com"),
                         ("customer_id", .str "u1"), ("ip_address", .str "10.0.0.7")] }] := rfl
  rw [hrun] at ho
  have ho2 := (List.cons.inj ho).1
  rw [← ho2] at hb
  have hb2 : b = [("type", .str "purchase"), ("customer_email", .str "a@x.com"),
      ("customer_id", .str "u1"), ("ip_address", .str "10.0.0.7")] :=
    (Option.some.inj hb).symm
  have h1 := hk "__proto__"
  rw [hb2] at h1
  have h2 : lookup [("type", JsVal.str "purchase"), ("customer_email", JsVal.str "a@x.com"),
      ("customer_id", JsVal.str "u1"), ("ip_address", JsVal.str "10.0.0.7")] "__proto__"
      = none := rfl
  have h3 : lookup protoReq.body "__proto__" = some (JsVal.obj [("admin", JsVal.bool true)]) :=
    rfl
  rw [h2, h3] at h1
  simp at h1

/-- C6, as amended: `POST /actions` with a user that resolves makes one v2
call whose body has exactly the properties of the request body other than
`__proto__`, plus `customer_email`, `customer_id` and `ip_address`, these
three holding the email and id of the user and the IP of the caller whatever
the request body says; the body never has an own property `__proto__`. -/
theorem actions_forwarded_body (config : SwellRewards) (w : World) (req : Req)
    (user : Obj) (hu : w.resolveUser req = Except.ok user) :
    ∃ o b, upstreamCalls (swellApi config w Route.postActions req) = [o]
      ∧ o.url = config.apiUrl.v2 ++ "/actions"
      ∧ o.body = some b
      ∧ ∀ k, lookup b k =
          if k = "ip_address" then some req.ip
          else if k = "customer_id" then some (getProp user "id")
          else if k = "customer_email" then some (getProp user "email")
          else if k = "__proto__" then none
          else lookup req.body k := by
  refine ⟨⟨config.apiUrl.v2 ++ "/actions", .POST, some (credentialHeaders config), true,
    none, some (assign (assign [] (setProp (setProp req.body "customer_email"
      (getProp user "email")) "customer_id" (getProp user "id"))) [("ip_address", req.ip)])⟩,
    assign (assign [] (setProp (setProp req.body "customer_email"
      (getProp user "email")) "customer_id" (getProp user "id"))) [("ip_address", req.ip)],
    ?_, rfl, rfl, ?_⟩
  · simp [swellApi, postActions, getUser, hu, upstreamCalls]
  · intro k
    rw [lookup_assign, lookup_assign_empty, lookup_setProp, lookup_setProp]
    by_cases h0 : k = "ip_address"
    · subst h0
      simp [lookup]
    · by_cases h1 : k = "customer_id"
      · subst h1
        simp [lookup]
      · by_cases h2 : k = "customer_email"
        · subst h2
          simp [lookup]
        · by_cases h3 : k = "__proto__"
          · subst h3
            simp
          · simp [h0, h1, h2, h3, lookup, Ne.symm h0, Ne.symm h1, Ne.symm h2]

/-- Witness of C6 as amended: user `{id: "u1", email: "a@x.com"}` and body
`{type: "purchase"}` give the forwarded body
`{type: "purchase", customer_email: "a@x.com", customer_id: "u1", ip_address: ip}`. -/
theorem actions_forwarded_body_witness :
    upstreamCalls (swellApi sampleConfig okWorld Route.postActions purchaseReq)
        = [{ url := "https://loyalty.example/v2/actions"
             method := .POST
             headers := some [("x-guid", .str "guid-1"), ("x-api-key", .str "key-1")]
             json := true
             qs := none
             body := some [("type", .str "purchase"), ("customer_email", .str "a@x.com"),
                           ("customer_id", .str "u1"), ("ip_address", .str "10.0.0.7")] }]
    ∧ ∃ o b, upstreamCalls (swellApi sampleConfig okWorld Route.postActions purchaseReq) = [o]
      ∧ o.url = sampleConfig.apiUrl.v2 ++ "/actions"
      ∧ o.body = some b
      ∧ ∀ k, lookup b k =
          if k = "ip_address" then some purchaseReq.ip
          else if k = "customer_id" then some (getProp sampleUser "id")
          else if k = "customer_email" then some (getProp sampleUser "email")
          else if k = "__proto__" then none
          else lookup purchaseReq.body k :=
  ⟨rfl, actions_forwarded_body sampleConfig okWorld purchaseReq sampleUser rfl⟩

/-! ## Identity fields cannot be chosen by the caller -/

theorem hasProp_cons (k1 : String) (v1 : JsVal) (rest : Obj) (k : String) :
    hasProp ((k1, v1) :: rest) k = (hasProp rest k || decide (k1 = k)) := by
  unfold hasProp
  simp only [lookup]
  cases lookup rest k with
  | some x => simp
  | none => by_cases h : k1 = k <;> simp [h]

theorem agreeOutside_refl (fs : List String) (a : Obj) : agreeOutside fs a a := by
  induction a with
  | nil => trivial
  | cons p rest ih =>
    obtain ⟨k, v⟩ := p
    exact ⟨rfl, fun _ => rfl, ih⟩

theorem agreeOutside_nil_eq : ∀ (a b : Obj), agreeOutside [] a b → a = b
  | [], [], _ => rfl
  | [], _ :: _, h => by simp [agreeOutside] at h
  | _ :: _, [], h => by simp [agreeOutside] at h
  | (k1, v1) :: r1, (k2, v2) :: r2, h => by
    obtain ⟨hk, hv, hr⟩ := h
    have h1 := agreeOutside_nil_eq r1 r2 hr
    have h2 := hv (by simp)
    rw [hk, h2, h1]

theorem agreeOutside_hasProp (fs : List String) (k : String) :
    ∀ (a b : Obj), agreeOutside fs a b → hasProp a k = hasProp b k
  | [], [], _ => rfl
  | [], _ :: _, h => by simp [agreeOutside] at h
  | _ :: _, [], h => by simp [agreeOutside] at h
  | (k1, v1) :: r1, (k2, v2) :: r2, h => by
    obtain ⟨hk, _, hr⟩ := h
    rw [hasProp_cons, hasProp_cons, agreeOutside_hasProp fs k r1 r2 hr, hk]

theorem agreeOutside_lookup (fs : List String) (k : String) (hk : k ∉ fs) :
    ∀ (a b : Obj), agreeOutside fs a b → lookup a k = lookup b k
  | [], [], _ => rfl
  | [], _ :: _, h => by simp [agreeOutside] at h
  | _ :: _, [], h => by simp [agreeOutside] at h
  | (k1, v1) :: r1, (k2, v2) :: r2, h => by
    obtain ⟨hkk, hv, hr⟩ := h
    simp only [lookup]
    rw [agreeOutside_lookup fs k hk r1 r2 hr, ← hkk]
    by_cases h1 : k1 = k
    · have h2 := hv (by rw [h1]; exact hk)
      rw [h2]
    · simp [h1]

theorem agreeOutside_getProp (fs : List String) (k : String) (hk : k ∉ fs)
    (a b : Obj) (h : agreeOutside fs a b) : getProp a k = getProp b k := by
  unfold getProp
  rw [agreeOutside_lookup fs k hk a b h]

theorem agreeOutside_append (fs : List String) (c d : Obj) (hcd : agreeOutside fs c d) :
    ∀ (a b : Obj), agreeOutside fs a b → agreeOutside fs (a ++ c) (b ++ d)
  | [], [], _ => by simpa using hcd
  | [], _ :: _, h => by simp [agreeOutside] at h
  | _ :: _, [], h => by simp [agreeOutside] at h
  | (k1, v1) :: r1, (k2, v2) :: r2, h => by
    obtain ⟨hk, hv, hr⟩ := h
    exact ⟨hk, hv, agreeOutside_append fs c d hcd r1 r2 hr⟩

theorem agreeOutside_map_replace (fs fs' : List String) (k : String) (v1 v2 : JsVal)
    (hv : k ∉ fs' → v1 = v2) (hsub : ∀ x, x ≠ k → x ∉ fs' → x ∉ fs) :
    ∀ (a b : Obj), agreeOutside fs a b →
      agreeOutside fs' (a.map (fun p => if p.1 = k then (k, v1) else p))
        (b.map (fun p => if p.1 = k then (k, v2) else p))
  | [], [], _ => trivial
  | [], _ :: _, h => by simp [agreeOutside] at h
  | _ :: _, [], h => by simp [agreeOutside] at h
  | (k1, w1) :: r1, (k2, w2) :: r2, h => by
    obtain ⟨hk, hw, hr⟩ := h
    have ih := agreeOutside_map_replace fs fs' k v1 v2 hv hsub r1 r2 hr
    subst hk
    by_cases h1 : k1 = k
    · simp only [List.map_cons, h1, if_true]
      exact ⟨rfl, hv, ih⟩
    · simp only [List.map_cons, h1, if_false]
      exact ⟨rfl, fun hx => hw (hsub k1 h1 hx), ih⟩

theorem map_replace_of_not_hasProp (k : String) (v : JsVal) :
    ∀ (a : Obj), hasProp a k = false →
      a.map (fun p => if p.1 = k then (k, v) else p) = a
  | [], _ => rfl
  | (k1, v1) :: rest, h => by
    rw [hasProp_cons] at h
    simp only [Bool.or_eq_false_iff, decide_eq_false_iff_not] at h
    simp only [List.map_cons, h.2, if_false]
    rw [map_replace_of_not_hasProp k v rest h.1]

theorem setProp_eq_map_append (a : Obj) (k : String) (v : JsVal) :
    setProp a k v
      = a.map (fun p => if p.1 = k then (k, v) else p)
          ++ (if hasProp a k then [] else [(k, v)]) := by
  unfold setProp
  cases h : hasProp a k
  · simp [map_replace_of_not_hasProp k v a h]
  · simp

/-- Writing a property on both sides keeps two objects in agreement; writing
the same value removes the property from the set of exceptions. -/
theorem agreeOutside_setProp (fs fs' : List String) (k : String) (v1 v2 : JsVal)
    (hv : k ∉ fs' → v1 = v2) (hsub : ∀ x, x ≠ k → x ∉ fs' → x ∉ fs)
    (a b : Obj) (h : agreeOutside fs a b) :
    agreeOutside fs' (setProp a k v1) (setProp b k v2) := by
  rw [setProp_eq_map_append, setProp_eq_map_append, agreeOutside_hasProp fs k a b h]
  apply agreeOutside_append
  · cases hasProp b k
    · exact ⟨rfl, hv, trivial⟩
    · trivial
  · exact agreeOutside_map_replace fs fs' k v1 v2 hv hsub a b h

theorem agreeOutside_setProp_same (fs : List String) (k : String) (v : JsVal)
    (a b : Obj) (h : agreeOutside (k :: fs) a b) :
    agreeOutside fs (setProp a k v) (setProp b k v) :=
  agreeOutside_setProp (k :: fs) fs k v v (fun _ => rfl)
    (fun x hx hxs => by simp [hx, hxs]) a b h

theorem agreeOutside_assign (fs : List String) :
    ∀ (s1 s2 t1 t2 : Obj), agreeOutside fs s1 s2 → agreeOutside fs t1 t2 →
      agreeOutside fs (assign t1 s1) (assign t2 s2)
  | [], [], _, _, _, ht => by simpa [assign] using ht
  | [], _ :: _, _, _, h, _ => by simp [agreeOutside] at h
  | _ :: _, [], _, _, h, _ => by simp [agreeOutside] at h
  | (k1, v1) :: r1, (k2, v2) :: r2, t1, t2, h, ht => by
    obtain ⟨hk, hv, hr⟩ := h
    subst hk
    by_cases hp : k1 = "__proto__"
    · subst hp
      rw [assign_cons_proto, assign_cons_proto]
      exact agreeOutside_assign fs r1 r2 _ _ hr ht
    · rw [assign_cons_other t1 k1 v1 r1 hp, assign_cons_other t2 k1 v2 r2 hp]
      exact agreeOutside_assign fs r1 r2 _ _ hr
        (agreeOutside_setProp fs fs k1 v1 v2 hv (fun _ _ hx => hx) t1 t2 ht)

/-- Two objects that agree outside `k1` and `k2` are equal once both
properties are written with the same values. -/
theorem setProp_two_eq (k1 k2 : String) (u1 u2 : JsVal) (a b : Obj)
    (h : agreeOutside [k1, k2] a b) :
    setProp (setProp a k1 u1) k2 u2 = setProp (setProp b k1 u1) k2 u2 :=
  agreeOutside_nil_eq _ _
    (agreeOutside_setProp_same [] k2 u2 _ _ (agreeOutside_setProp_same [k2] k1 u1 a b h))

/-- C10: on the five routes that always resolve the user, two requests that
resolve to the same user and differ at most in the caller-supplied values of
the identity fields of the route produce the same upstream calls, and in the
payload of every such call each identity field holds the id or email of the
resolved user. -/
theorem identity_not_spoofable (config : SwellRewards) (w : World) (r : Route)
    (req1 req2 : Req) (user : Obj) (hr : authenticated r = true)
    (hs : sameUpToIdentity r req1 req2)
    (h1 : w.resolveUser req1 = Except.ok user) (h2 : w.resolveUser req2 = Except.ok user) :
    upstreamCalls (swellApi config w r req1) = upstreamCalls (swellApi config w r req2)
      ∧ ∀ o ∈ upstreamCalls (swellApi config w r req1),
          ∃ p, payload o = some p
            ∧ ∀ f ∈ identityFields r, lookup p f.1 = some (getProp user f.2) := by
  obtain ⟨hip, hq, hb⟩ := hs
  cases r <;> simp only [authenticated, Bool.false_eq_true] at hr
  case postActions =>
    have hbody := setProp_two_eq "customer_email" "customer_id" (getProp user "email")
      (getProp user "id") req1.body req2.body hb
    simp only [swellApi, postActions, getUser, h1, h2, upstreamCalls,
      upstreamCalls_relayDecoded, hbody, hip, true_and]
    intro o ho
    rw [List.mem_singleton] at ho
    subst ho
    refine ⟨_, rfl, ?_⟩
    intro f hf
    simp only [identityFields, List.mem_cons, List.mem_singleton, List.not_mem_nil,
      or_false] at hf
    rcases hf with rfl | rfl <;>
      simp [lookup_assign, lookup_assign_empty, lookup_setProp, lookup]
  case postCustomers =>
    have hbody := setProp_two_eq "id" "email" (getProp user "id")
      (getProp user "email") req1.body req2.body hb
    have hf1 := agreeOutside_getProp _ "first_name" (by decide) _ _ hb
    have hf2 := agreeOutside_getProp _ "last_name" (by decide) _ _ hb
    simp only [swellApi, postCustomers, getUser, h1, h2, hf1, hf2, hbody]
    by_cases c1 : truthy (getProp req2.body "first_name") = true
    · by_cases c2 : truthy (getProp req2.body "last_name") = true
      · simp only [c1, c2, Bool.not_true, Bool.false_eq_true, if_false, upstreamCalls,
          upstreamCalls_relayVerbatim, true_and]
        intro o ho
        rw [List.mem_singleton] at ho
        subst ho
        refine ⟨_, rfl, ?_⟩
        intro f hf
        simp only [identityFields, List.mem_cons, List.mem_singleton, List.not_mem_nil,
          or_false] at hf
        rcases hf with rfl | rfl <;> simp [lookup_setProp]
      · simp [c1, c2, upstreamCalls]
    · simp [c1, upstreamCalls]
  case postCustomerBirthdays =>
    have hbody : setProp req1.body "customer_email" (getProp user "email")
        = setProp req2.body "customer_email" (getProp user "email") :=
      agreeOutside_nil_eq _ _ (agreeOutside_setProp_same [] _ _ _ _ hb)
    have hf1 := agreeOutside_getProp _ "day" (by decide) _ _ hb
    have hf2 := agreeOutside_getProp _ "month" (by decide) _ _ hb
    have hf3 := agreeOutside_getProp _ "year" (by decide) _ _ hb
    simp only [swellApi, postCustomerBirthdays, getUser, h1, h2, hf1, hf2, hf3, hbody]
    split
    · simp [upstreamCalls]
    · simp only [upstreamCalls, upstreamCalls_relayVerbatim, true_and]
      intro o ho
      rw [List.mem_singleton] at ho
      subst ho
      refine ⟨_, rfl, ?_⟩
      intro f hf
      simp only [identityFields, List.mem_singleton] at hf
      subst hf
      simp [lookup_setProp]
  case getCustomers =>
    have hassign := agreeOutside_assign _ req1.query req2.query [] [] hq trivial
    have hstep : ∀ q : Obj, assign q [("customer_id", getProp user "id"),
          ("customer_email", getProp user "email")]
        = setProp (setProp q "customer_id" (getProp user "id")) "customer_email"
            (getProp user "email") := fun q => by simp [assign]
    have hqs := setProp_two_eq "customer_id" "customer_email" (getProp user "id")
      (getProp user "email") _ _ hassign
    simp only [swellApi, getCustomers, getUser, h1, h2, upstreamCalls,
      upstreamCalls_relayDecoded, hstep, hqs, true_and]
    intro o ho
    rw [List.mem_singleton] at ho
    subst ho
    refine ⟨_, rfl, ?_⟩
    intro f hf
    simp only [identityFields, List.mem_cons, List.mem_singleton, List.not_mem_nil,
      or_false] at hf
    rcases hf with rfl | rfl <;> simp [lookup_setProp]
  case postRedemptions =>
    have hbody := setProp_two_eq "customer_external_id" "customer_email" (getProp user "id")
      (getProp user "email") req1.body req2.body hb
    have hf1 := agreeOutside_getProp _ "redemption_option_id" (by decide) _ _ hb
    simp only [swellApi, postRedemptions, getUser, h1, h2, hf1, hbody]
    split
    · simp [upstreamCalls]
    · simp only [upstreamCalls, upstreamCalls_relayDecoded, true_and]
      intro o ho
      rw [List.mem_singleton] at ho
      subst ho
      refine ⟨_, rfl, ?_⟩
      intro f hf
      simp only [identityFields, List.mem_cons, List.mem_singleton, List.not_mem_nil,
        or_false] at hf
      rcases hf with rfl | rfl <;> simp [lookup_setProp]

/-- Witness of C10: on `POST /redemptions` a request carrying somebody
else's email in `customer_email` is forwarded exactly as the honest one, with
the email and id of the resolved user. -/
theorem identity_not_spoofable_witness :
    sameUpToIdentity Route.postRedemptions redeemReq spoofedRedeemReq
    ∧ upstreamCalls (swellApi sampleConfig okWorld Route.postRedemptions redeemReq)
        = upstreamCalls (swellApi sampleConfig okWorld Route.postRedemptions spoofedRedeemReq)
    ∧ ∃ p, payload
          (⟨"https://loyalty.example/v2/redemptions", .POST,
            some (credentialHeaders sampleConfig), true, none,
            some [("redemption_option_id", .num 7), ("customer_email", .str "a@x.com"),
                  ("customer_external_id", .str "u1")]⟩ : Options) = some p
        ∧ ∀ f ∈ identityFields Route.postRedemptions,
            lookup p f.1 = some (getProp sampleUser f.2) :=
  have hs : sameUpToIdentity Route.postRedemptions redeemReq spoofedRedeemReq :=
    ⟨rfl, ⟨rfl, fun _ => rfl, trivial⟩,
      ⟨rfl, fun _ => rfl, rfl, fun h => absurd (by decide) h, trivial⟩⟩
  ⟨hs,
   (identity_not_spoofable sampleConfig okWorld Route.postRedemptions redeemReq
      spoofedRedeemReq sampleUser rfl hs rfl rfl).1,
   (identity_not_spoofable sampleConfig okWorld Route.postRedemptions redeemReq
      spoofedRedeemReq sampleUser rfl hs rfl rfl).2 _ (List.Mem.head _)⟩

end SwellApi
